import Mathlib

/-!
Verification of the connection cache and resource lifecycle manager of
`gogoods/grpcli` (`src/client.go`, package `core`).

The embedding is a value-semantics translation of `client.go`.  The Go code
mutates a shared cache through pointers; here every operation returns the
updated cache explicitly, together with trace fields (number of dial attempts,
credentials handed to the blocking dial, number of `AddProtos` invocations)
that make the claims about "no dial", "no retry", "persist exactly once" and
"no transport credentials" statable.

External collaborators (the grpcurl/grpc transport layer) and the repository's
`ConnStore` / `Resource` implementations, which are declared in files outside
`src/`, are modelled from the spec; each such definition carries a doc comment
starting with `Modelled from the spec:`.  Opaque external outcomes (dial
success or failure, credential construction, persistence, the remote call
itself) are oracle arguments, so the definitions stay executable.
-/

namespace Grpcli

/-- Opaque transport connection handle (Go `*grpc.ClientConn`); the embedding
only needs its identity, so a natural number stands for it. -/
abbrev Conn := Nat

/-- Opaque transport credentials object (Go `credentials.TransportCredentials`);
the embedding only tracks which credentials value is handed to the dial, so an
opaque token suffices. -/
abbrev Creds := String

/-- Proto - a protofile uploaded from the client (src/client.go lines 41-44). -/
structure Proto where
  name : String
  content : List Nat
  deriving DecidableEq

/-- Modelled from the spec: the metadata object produced by the external
metadata-construction collaborator `HeadersToMetadata(headerList)` (spec §6).
It is opaque to this core; all that matters is that it is determined by the
header list it was built from. -/
structure Metadata where
  ofHeaders : List String
  deriving DecidableEq

/-- Modelled from the spec: `HeadersToMetadata(headerList) -> metadataObject`
(spec §6); stands for `grpcurl.MetadataFromHeaders`. -/
def MetadataFromHeaders (headers : List String) : Metadata :=
  ⟨headers⟩

/-- Resource - wraps one live connection plus its request metadata and the
locally supplied descriptor set (spec §3; the `Resource` struct lives outside
`src/`, its fields are those `src/client.go` reads and writes: `headers`,
`md`, `clientConn`, `protos`).  Field defaults give Go's `new(Resource)`
zero value.  Health (`isValid`) is derived from the connection handle's state,
so it is an oracle argument of the operations, not a stored field. -/
structure Resource where
  headers : List String := []
  md : Metadata := ⟨[]⟩
  clientConn : Conn := 0
  protos : List Proto := []
  deriving DecidableEq

/-- Modelled from the spec: a cache entry — a Resource annotated with an
absolute expiry time (spec §3 CacheEntry); `expiresAt = none` is the
never-expiring state used when the configured max lifetime is non-positive
(spec §4.1 Insert). -/
structure CacheEntry where
  resource : Resource
  expiresAt : Option Int
  deriving DecidableEq

/-- The cache contents: an association list from endpoint key to entry,
standing for the `ConnStore` map. -/
abbrev Cache := List (String × CacheEntry)

/-- Modelled from the spec: `Lookup(endpoint) -> (entry, found)` (spec §4.1);
read-only, does not mutate expiry. -/
def lookupEntry (cache : Cache) (target : String) : Option CacheEntry :=
  match cache with
  | [] => none
  | e :: es => if e.1 == target then some e.2 else lookupEntry es target

/-- Modelled from the spec: `ConnStore.getConnection` — the Resource of the
cached entry for `target`, when present (spec §4.1 Lookup). -/
def getConnection (cache : Cache) (target : String) : Option Resource :=
  (lookupEntry cache target).map (·.resource)

/-- Modelled from the spec: `Delete(endpoint)` — removes the entry if present
(and closes its handle, not tracked here); a no-op if absent (spec §4.1). -/
def deleteConn (cache : Cache) (target : String) : Cache :=
  cache.filter fun e => e.1 != target

/-- Modelled from the spec: `Insert(endpoint, resource, maxLifetime)` — sets
`expiresAt = now + maxLifetime`, or a never-expiring entry when
`maxLifetime <= 0` (spec §4.1); keeps at most one entry per key (spec §3
invariant). -/
def addConnection (cache : Cache) (target : String) (r : Resource)
    (maxLifetime now : Int) : Cache :=
  (target, { resource := r
             expiresAt := if maxLifetime ≤ 0 then none else some (now + maxLifetime) })
    :: deleteConn cache target

/-- Modelled from the spec: one pass of the background sweep launched by
`StartSweep(interval)` — removes every entry with `expiresAt <= now`; entries
with no expiry are never removed (spec §4.1). -/
def sweep (cache : Cache) (now : Int) : Cache :=
  cache.filter fun e =>
    match e.2.expiresAt with
    | none => true
    | some t => !(t ≤ now)

/-- The in-place header (or descriptor) overwrite Go performs through the
`*Resource` pointer obtained from the cache: every entry holding the looked-up
key has its resource replaced; keys and expiry times are untouched. -/
def updateResource (cache : Cache) (target : String) (r : Resource) : Cache :=
  cache.map fun e => if e.1 == target then (e.1, { e.2 with resource := r }) else e

/-- Client - main object (src/client.go lines 20-36).  `KeepAlive` and
`authority` only select opaque transport dial options, which are folded into
the dial oracle; `isUnixSocket` models the nil-able Go predicate (`none` for a
nil function pointer). -/
structure Client where
  keepAlive : Int := 0
  activeConn : Cache := []
  maxLifeConn : Int := 0
  headers : List String := []
  reflectHeaders : List String := []
  authority : String := ""
  insecure : Bool := false
  cacert : String := ""
  cert : String := ""
  key : String := ""
  serverName : String := ""
  isUnixSocket : Option Bool := none
  deriving DecidableEq

/-- Nanoseconds in one second (Go `time.Second`). -/
def nanosPerSecond : Int := 1000000000

/-- Nanoseconds in one minute (Go `time.Minute`). -/
def nanosPerMinute : Int := 60 * nanosPerSecond

/-- Result of `NewClient`: the constructed client, whether the background
sweep (`ConnStore.StartGC`) was started, and with which interval. -/
structure NewClientRes where
  client : Client
  gcStarted : Bool
  gcInterval : Int
  deriving DecidableEq

/-- NewClient constructor (src/client.go lines 47-69).  `envMaxLife` and
`envTick` are the successfully parsed values of `MAX_LIFE_CONN` and
`TICK_CLOSE_CONN` (`none` when the variable is absent or `strconv.Atoi`
fails, in which case the defaults 10 and 3 stand). -/
def NewClient (envMaxLife envTick : Option Int) : NewClientRes :=
  let maxLife := envMaxLife.getD 10
  let tick := envTick.getD 3
  if 0 < maxLife ∧ 0 < tick then
    { client := { maxLifeConn := maxLife * nanosPerMinute }
      gcStarted := true
      gcInterval := tick * nanosPerSecond }
  else
    { client := {}
      gcStarted := false
      gcInterval := 0 }

/-- SetHeaders (src/client.go lines 71-73). -/
def Client.SetHeaders (g : Client) (headers : List String) : Client :=
  { g with headers := headers }

/-- AddHeaders (src/client.go lines 75-77); Go `append` on slices is
concatenation. -/
def Client.AddHeaders (g : Client) (headers : List String) : Client :=
  { g with headers := g.headers ++ headers }

/-- ClearHeaders (src/client.go lines 79-81); the argument is ignored. -/
def Client.ClearHeaders (g : Client) (_headers : List String) : Client :=
  { g with headers := [] }

/-- CloseActiveConns - close conn by host or all (src/client.go lines 157-167).
The `"all"` branch iterates over the current keys and deletes each one; both
branches return a nil error. -/
def Client.CloseActiveConns (g : Client) (host : String) : Client × Option String :=
  if host == "all" then
    ({ g with activeConn := (g.activeConn.map Prod.fst).foldl deleteConn g.activeConn },
      none)
  else
    ({ g with activeConn := deleteConn g.activeConn host }, none)

/-- Modelled from the spec: outcomes of the external transport collaborators
(spec §6) — `BuildCredentials` (grpcurl.ClientTransportCredentials),
`OverrideServerName`, and the blocking dial `Dial(network, endpoint, creds)`.
Each field gives the result the external layer produces for those arguments. -/
structure DialOracle where
  buildCreds : Bool → String → String → String → Except String Creds
  overrideServerName : String → Creds → Except String Creds
  blockingDial : String → String → Option Creds → Except String Conn

/-- Result of `dial`: the connection or the surfaced error, and the
credentials handed to the blocking dial (`none` when the blocking dial was
never reached, `some co` when it was invoked with credentials `co`;
`some none` is a plaintext dial). -/
structure DialRes where
  conn : Except String Conn
  credsUsed : Option (Option Creds)

/-- dial (src/client.go lines 174-215).  The 10-second dial timeout, the
keepalive and authority options are opaque transport concerns folded into the
oracle.  When `plainText` holds, the credentials variable stays nil and no
credential construction happens. -/
def Client.dial (g : Client) (target : String) (plainText : Bool)
    (o : DialOracle) : DialRes :=
  let network := if g.isUnixSocket.getD false then "unix" else "tcp"
  if plainText then
    { conn := o.blockingDial network target none, credsUsed := some none }
  else
    match o.buildCreds g.insecure g.cacert g.cert g.key with
    | Except.error e => { conn := Except.error e, credsUsed := none }
    | Except.ok c =>
      if g.serverName != "" then
        match o.overrideServerName g.serverName c with
        | Except.error e => { conn := Except.error e, credsUsed := none }
        | Except.ok c2 =>
          { conn := o.blockingDial network target (some c2), credsUsed := some (some c2) }
      else
        { conn := o.blockingDial network target (some c), credsUsed := some (some c) }

/-- Result of one `GetResource` call: the returned resource or error, the
cache after the call, the number of dial attempts made, and the credentials
handed to the blocking dial (`none` when no dial reached the transport). -/
structure GRes where
  result : Except String Resource
  cache : Cache
  dialCount : Nat
  credsUsed : Option (Option Creds)

/-- The dial-and-insert tail of `GetResource` (src/client.go lines 111-123):
build the combined headers and their metadata, dial, and on success cache and
return a fresh Resource; on failure surface the dial error unchanged.
`cache0` is the cache state after the stale-entry deletion (if any). -/
def dialAndCache (g : Client) (target : String) (plainText : Bool)
    (o : DialOracle) (now : Int) (cache0 : Cache) : GRes :=
  let h := g.headers ++ g.reflectHeaders
  let d := g.dial target plainText o
  match d.conn with
  | Except.error e =>
    { result := Except.error e, cache := cache0, dialCount := 1, credsUsed := d.credsUsed }
  | Except.ok cc =>
    let r : Resource :=
      { headers := h, md := MetadataFromHeaders h, clientConn := cc, protos := [] }
    { result := Except.ok r
      cache := addConnection cache0 target r g.maxLifeConn now
      dialCount := 1
      credsUsed := d.credsUsed }

/-- GetResource - open resource to targeted grpc server (src/client.go lines
101-124).  `valid` is the health oracle on connection handles (`r.isValid()`
queries the handle's transport state); `now` is the current time used by the
cache insert.  On a valid cache hit the cached Resource's headers are
overwritten in place with the combined header set and the same Resource is
returned; otherwise the stale entry is removed via `CloseActiveConns` and the
dial path runs. -/
def Client.GetResource (g : Client) (target : String) (plainText isRestartConn : Bool)
    (valid : Conn → Bool) (o : DialOracle) (now : Int) : GRes :=
  match getConnection g.activeConn target with
  | some r =>
    if !isRestartConn && valid r.clientConn then
      let h := g.headers ++ g.reflectHeaders
      let r2 := { r with headers := h }
      { result := Except.ok r2
        cache := updateResource g.activeConn target r2
        dialCount := 0
        credsUsed := none }
    else
      dialAndCache g target plainText o now (g.CloseActiveConns target).1.activeConn
  | none => dialAndCache g target plainText o now g.activeConn

/-- Modelled from the spec: `Resource.AddProtos` / `SetDescriptors` (spec
§4.2) — an unchanged set is an idempotent no-op; a changed set is persisted
(outcome given by the `persist` oracle) and recorded on the Resource; on
persistence failure the recorded set is unchanged and the error surfaced. -/
def AddProtos (r : Resource) (protos : List Proto) (persist : Except String Unit) :
    Resource × Option String :=
  if r.protos = protos then (r, none)
  else
    match persist with
    | Except.ok _ => ({ r with protos := protos }, none)
    | Except.error e => (r, some e)

/-- Result of `GetResourceWithProto`: Go returns the resource and the error as
separate values (both can be non-nil when persistence fails), plus the trace
of dial attempts and of calls to `AddProtos`. -/
structure GPRes where
  res : Option Resource
  err : Option String
  cache : Cache
  dialCount : Nat
  addProtosCalls : Nat
  deriving DecidableEq

/-- GetResourceWithProto - open resource using the given protofile
(src/client.go lines 127-142): acquire via `GetResource`, then skip
`AddProtos` when the supplied set deep-equals the Resource's recorded set
(`reflect.DeepEqual(r.protos, protos)`), otherwise call `AddProtos` and
return its error alongside the resource. -/
def Client.GetResourceWithProto (g : Client) (target : String)
    (plainText isRestartConn : Bool) (protos : List Proto)
    (valid : Conn → Bool) (o : DialOracle) (persist : Except String Unit)
    (now : Int) : GPRes :=
  let gr := g.GetResource target plainText isRestartConn valid o now
  match gr.result with
  | Except.error e =>
    { res := none, err := some e, cache := gr.cache
      dialCount := gr.dialCount, addProtosCalls := 0 }
  | Except.ok r =>
    if r.protos = protos then
      { res := some r, err := none, cache := gr.cache
        dialCount := gr.dialCount, addProtosCalls := 0 }
    else
      let pr := AddProtos r protos persist
      { res := some pr.1, err := pr.2
        cache := updateResource gr.cache target pr.1
        dialCount := gr.dialCount, addProtosCalls := 1 }

/-- Result of `Client.Invoke`: Go's named returns `(reply, cost, err)`, the
cache after the call, the dial trace, and the delegation record — `invoked =
some (rs, fqmn)` iff `Resource.Invoke` was called on resource `rs` with the
fully qualified method name `fqmn`. -/
structure InvokeRes where
  reply : String
  cost : Int
  err : Option String
  cache : Cache
  dialCount : Nat
  credsUsed : Option (Option Creds)
  invoked : Option (Resource × String)
  deriving DecidableEq

/-- Invoke (src/client.go lines 83-98): acquire with `plainText = true` and
`isRestartConn = false`, propagate an acquisition error without delegating,
otherwise delegate to `Resource.Invoke` with the method name
`service ++ "." ++ method`.  `run` is the `Resource.Invoke` collaborator,
modelled from the spec (spec §4.2): it yields `(reply, elapsed, error)` for a
resource, a fully qualified method name and a payload. -/
def Client.Invoke (g : Client) (target service method data : String)
    (valid : Conn → Bool) (o : DialOracle)
    (run : Resource → String → String → String × Int × Option String)
    (now : Int) : InvokeRes :=
  let gr := g.GetResource target true false valid o now
  match gr.result with
  | Except.error e =>
    { reply := "", cost := 0, err := some e, cache := gr.cache
      dialCount := gr.dialCount, credsUsed := gr.credsUsed, invoked := none }
  | Except.ok rs =>
    let fq := service ++ "." ++ method
    let out := run rs fq data
    { reply := out.1, cost := out.2.1, err := out.2.2, cache := gr.cache
      dialCount := gr.dialCount, credsUsed := gr.credsUsed
      invoked := some (rs, fq) }

/-- The two-call experiment of the persist-once scenario: call
`GetResourceWithProto` with descriptor set `protos`, carry the resulting cache
into the client, and call it again with the same set (non-restarting, so the
second call reuses the cached Resource when it is healthy).  Persistence
always succeeds. -/
def twoProtoCalls (g : Client) (target : String) (pt irc pt2 : Bool)
    (protos : List Proto) (valid : Conn → Bool) (o o2 : DialOracle)
    (now now2 : Int) : GPRes × GPRes :=
  let first := g.GetResourceWithProto target pt irc protos valid o (Except.ok ()) now
  let g1 : Client := { g with activeConn := first.cache }
  (first, g1.GetResourceWithProto target pt2 false protos valid o2 (Except.ok ()) now2)

/-! ### Cache lemmas -/

@[simp]
theorem lookupEntry_nil (t : String) : lookupEntry [] t = none := rfl

@[simp]
theorem lookupEntry_cons (e : String × CacheEntry) (es : Cache) (t : String) :
    lookupEntry (e :: es) t = if e.1 == t then some e.2 else lookupEntry es t := rfl

theorem lookupEntry_deleteConn_self (c : Cache) (t : String) :
    lookupEntry (deleteConn c t) t = none := by
  induction c with
  | nil => rfl
  | cons e es ih =>
    by_cases he : e.1 = t
    · simpa [deleteConn, List.filter_cons, he] using ih
    · simpa [deleteConn, List.filter_cons, he] using ih

theorem lookupEntry_deleteConn_other (c : Cache) (t k : String) (hk : k ≠ t) :
    lookupEntry (deleteConn c t) k = lookupEntry c k := by
  induction c with
  | nil => rfl
  | cons e es ih =>
    by_cases he : e.1 = t
    · simpa [deleteConn, List.filter_cons, he, Ne.symm hk] using ih
    · by_cases hek : e.1 = k
      · simp [deleteConn, List.filter_cons, he, hek, hk]
      · simpa [deleteConn, List.filter_cons, he, hek] using ih

theorem deleteConn_absent (c : Cache) (t : String) (h : lookupEntry c t = none) :
    deleteConn c t = c := by
  induction c with
  | nil => rfl
  | cons e es ih =>
    by_cases he : e.1 = t
    · simp [he] at h
    · have h' : lookupEntry es t = none := by simpa [he] using h
      simpa [deleteConn, List.filter_cons, he] using ih h'

theorem foldl_deleteConn_all (ks : List String) (c : Cache)
    (h : ∀ e ∈ c, e.1 ∈ ks) : List.foldl deleteConn c ks = [] := by
  induction ks generalizing c with
  | nil =>
    cases c with
    | nil => rfl
    | cons e es => exact absurd (h e (by simp)) (by simp)
  | cons k ks ih =>
    simp only [List.foldl_cons]
    refine ih (deleteConn c k) ?_
    intro e he
    have hmem : e ∈ c ∧ ¬e.1 = k := by simpa [deleteConn, List.mem_filter] using he
    have hne : e.1 ≠ k := hmem.2
    have := h e hmem.1
    simp only [List.mem_cons] at this
    rcases this with h1 | h1
    · exact absurd h1 hne
    · exact h1

theorem closeActiveConns_all (g : Client) :
    (g.CloseActiveConns "all").1.activeConn = [] := by
  have hb : (("all" : String) == "all") = true := by simp
  simp only [Client.CloseActiveConns, hb, if_true]
  exact foldl_deleteConn_all _ _ (fun e he => List.mem_map_of_mem Prod.fst he)

theorem closeActiveConns_other (g : Client) (host : String) (h : host ≠ "all") :
    (g.CloseActiveConns host).1.activeConn = deleteConn g.activeConn host := by
  simp [Client.CloseActiveConns, h]

theorem lookupEntry_closeActiveConns_self (g : Client) (target : String) :
    lookupEntry (g.CloseActiveConns target).1.activeConn target = none := by
  by_cases h : target = "all"
  · subst h; rw [closeActiveConns_all]; rfl
  · rw [closeActiveConns_other g target h]
    exact lookupEntry_deleteConn_self _ _

@[simp]
theorem updateResource_nil (t : String) (r : Resource) : updateResource [] t r = [] := rfl

@[simp]
theorem updateResource_cons (e : String × CacheEntry) (es : Cache) (t : String) (r : Resource) :
    updateResource (e :: es) t r =
      (if e.1 == t then (e.1, { e.2 with resource := r }) else e) :: updateResource es t r := by
  simp [updateResource]

theorem updateResource_keys_expiry (c : Cache) (t : String) (r : Resource) :
    (updateResource c t r).map (fun e => (e.1, e.2.expiresAt)) =
      c.map (fun e => (e.1, e.2.expiresAt)) := by
  induction c with
  | nil => rfl
  | cons e es ih =>
    cases he : e.1 == t with
    | true => simp [he, ih]
    | false => simp [he, ih]

theorem getConnection_updateResource_self (c : Cache) (t : String) (r : Resource)
    (h : (lookupEntry c t).isSome) :
    getConnection (updateResource c t r) t = some r := by
  induction c with
  | nil => simp at h
  | cons e es ih =>
    cases he : e.1 == t with
    | true => simp [getConnection, he]
    | false =>
      simp only [lookupEntry_cons, he, if_neg, Bool.false_eq_true, not_false_iff] at h
      simp only [updateResource_cons, he, if_neg, Bool.false_eq_true, not_false_iff]
      simp only [getConnection, lookupEntry_cons, he]
      exact ih h

@[simp]
theorem lookupEntry_addConnection_self (c : Cache) (t : String) (r : Resource)
    (ml now : Int) :
    lookupEntry (addConnection c t r ml now) t =
      some { resource := r, expiresAt := if ml ≤ 0 then none else some (now + ml) } := by
  simp [addConnection]

/-! ### GetResource reduction lemmas -/

theorem lookupEntry_isSome_of_getConnection (c : Cache) (t : String) (r : Resource)
    (hc : getConnection c t = some r) : (lookupEntry c t).isSome := by
  unfold getConnection at hc
  cases hl : lookupEntry c t <;> simp [hl] at hc ⊢

theorem getResource_hit_eq (g : Client) (target : String) (plainText isRestartConn : Bool)
    (valid : Conn → Bool) (o : DialOracle) (now : Int) (r : Resource)
    (hhit : getConnection g.activeConn target = some r)
    (hcond : (!isRestartConn && valid r.clientConn) = true) :
    g.GetResource target plainText isRestartConn valid o now =
      { result := Except.ok { r with headers := g.headers ++ g.reflectHeaders }
        cache := updateResource g.activeConn target
          { r with headers := g.headers ++ g.reflectHeaders }
        dialCount := 0
        credsUsed := none } := by
  simp [Client.GetResource, hhit, hcond]

theorem getResource_miss_eq (g : Client) (target : String) (plainText isRestartConn : Bool)
    (valid : Conn → Bool) (o : DialOracle) (now : Int)
    (hmiss : getConnection g.activeConn target = none) :
    g.GetResource target plainText isRestartConn valid o now =
      dialAndCache g target plainText o now g.activeConn := by
  simp [Client.GetResource, hmiss]

theorem getResource_stale_eq (g : Client) (target : String) (plainText isRestartConn : Bool)
    (valid : Conn → Bool) (o : DialOracle) (now : Int) (r : Resource)
    (hhit : getConnection g.activeConn target = some r)
    (hcond : (!isRestartConn && valid r.clientConn) = false) :
    g.GetResource target plainText isRestartConn valid o now =
      dialAndCache g target plainText o now (g.CloseActiveConns target).1.activeConn := by
  simp [Client.GetResource, hhit, hcond]

theorem dialAndCache_error (g : Client) (target : String) (plainText : Bool)
    (o : DialOracle) (now : Int) (cache0 : Cache) (e : String)
    (hd : (g.dial target plainText o).conn = Except.error e) :
    dialAndCache g target plainText o now cache0 =
      { result := Except.error e, cache := cache0, dialCount := 1
        credsUsed := (g.dial target plainText o).credsUsed } := by
  simp [dialAndCache, hd]

theorem dialAndCache_ok (g : Client) (target : String) (plainText : Bool)
    (o : DialOracle) (now : Int) (cache0 : Cache) (cc : Conn)
    (hd : (g.dial target plainText o).conn = Except.ok cc) :
    dialAndCache g target plainText o now cache0 =
      { result := Except.ok
          { headers := g.headers ++ g.reflectHeaders
            md := MetadataFromHeaders (g.headers ++ g.reflectHeaders)
            clientConn := cc, protos := [] }
        cache := addConnection cache0 target
          { headers := g.headers ++ g.reflectHeaders
            md := MetadataFromHeaders (g.headers ++ g.reflectHeaders)
            clientConn := cc, protos := [] } g.maxLifeConn now
        dialCount := 1
        credsUsed := (g.dial target plainText o).credsUsed } := by
  simp [dialAndCache, hd]

theorem getResource_ok_lookup (g : Client) (target : String) (plainText isRestartConn : Bool)
    (valid : Conn → Bool) (o : DialOracle) (now : Int) (r : Resource)
    (h : (g.GetResource target plainText isRestartConn valid o now).result = Except.ok r) :
    getConnection (g.GetResource target plainText isRestartConn valid o now).cache target
      = some r := by
  cases hc : getConnection g.activeConn target with
  | none =>
    rw [getResource_miss_eq g target plainText isRestartConn valid o now hc] at h ⊢
    cases hd : (g.dial target plainText o).conn with
    | error e =>
      rw [dialAndCache_error g target plainText o now _ e hd] at h
      simp at h
    | ok cc =>
      rw [dialAndCache_ok g target plainText o now _ cc hd] at h ⊢
      simp only at h
      obtain rfl := Except.ok.inj h
      simp [getConnection, lookupEntry_addConnection_self]
  | some r0 =>
    cases hv : !isRestartConn && valid r0.clientConn with
    | false =>
      rw [getResource_stale_eq g target plainText isRestartConn valid o now r0 hc hv] at h ⊢
      cases hd : (g.dial target plainText o).conn with
      | error e =>
        rw [dialAndCache_error g target plainText o now _ e hd] at h
        simp at h
      | ok cc =>
        rw [dialAndCache_ok g target plainText o now _ cc hd] at h ⊢
        simp only at h
        obtain rfl := Except.ok.inj h
        simp [getConnection, lookupEntry_addConnection_self]
    | true =>
      rw [getResource_hit_eq g target plainText isRestartConn valid o now r0 hc hv] at h ⊢
      simp only at h
      obtain rfl := Except.ok.inj h
      exact getConnection_updateResource_self _ _ _
        (lookupEntry_isSome_of_getConnection _ _ _ hc)

theorem lookupEntry_eq_none_of_getConnection (c : Cache) (t : String)
    (hc : getConnection c t = none) : lookupEntry c t = none := by
  unfold getConnection at hc
  cases hl : lookupEntry c t <;> simp [hl] at hc ⊢

/-- Behaviour of the dial-and-insert tail when no entry for the target is left
in the pre-dial cache: exactly one dial, a dial error surfaced unchanged with
no entry inserted, or a fresh Resource inserted with the configured max
lifetime. -/
theorem dialAndCache_spec (g : Client) (target : String) (plainText : Bool)
    (o : DialOracle) (now : Int) (cache0 : Cache)
    (hnone : lookupEntry cache0 target = none) :
    (dialAndCache g target plainText o now cache0).dialCount = 1 ∧
    (∀ e, (g.dial target plainText o).conn = Except.error e →
      (dialAndCache g target plainText o now cache0).result = Except.error e ∧
      getConnection (dialAndCache g target plainText o now cache0).cache target = none) ∧
    (∀ cc, (g.dial target plainText o).conn = Except.ok cc →
      (dialAndCache g target plainText o now cache0).result
        = Except.ok { headers := g.headers ++ g.reflectHeaders
                      md := MetadataFromHeaders (g.headers ++ g.reflectHeaders)
                      clientConn := cc, protos := [] } ∧
      lookupEntry (dialAndCache g target plainText o now cache0).cache target
        = some { resource := { headers := g.headers ++ g.reflectHeaders
                               md := MetadataFromHeaders (g.headers ++ g.reflectHeaders)
                               clientConn := cc, protos := [] }
                 expiresAt := if g.maxLifeConn ≤ 0 then none
                              else some (now + g.maxLifeConn) }) := by
  refine ⟨?_, ?_, ?_⟩
  · cases hd : (g.dial target plainText o).conn with
    | error e => rw [dialAndCache_error g target plainText o now cache0 e hd]
    | ok cc => rw [dialAndCache_ok g target plainText o now cache0 cc hd]
  · intro e hd
    rw [dialAndCache_error g target plainText o now cache0 e hd]
    exact ⟨rfl, by simp [getConnection, hnone]⟩
  · intro cc hd
    rw [dialAndCache_ok g target plainText o now cache0 cc hd]
    exact ⟨rfl, lookupEntry_addConnection_self _ _ _ _ _⟩

/-! ### Concrete fixtures used by the witnesses -/

/-- A transport oracle whose every dial succeeds with connection handle 1. -/
def oracle0 : DialOracle where
  buildCreds := fun _ _ _ _ => Except.ok "creds"
  overrideServerName := fun _ c => Except.ok c
  blockingDial := fun _ _ _ => Except.ok 1

/-- A transport oracle whose blocking dial always fails. -/
def oracleFail : DialOracle where
  buildCreds := fun _ _ _ _ => Except.ok "creds"
  overrideServerName := fun _ c => Except.ok c
  blockingDial := fun _ _ _ => Except.error "dial failed"

/-- A cached resource for the fixtures. -/
def res0 : Resource :=
  { headers := ["k0: v0"], md := MetadataFromHeaders ["k0: v0"], clientConn := 7, protos := [] }

/-- A client holding one cached entry for endpoint `svcA`. -/
def client0 : Client :=
  { activeConn := [("svcA", { resource := res0, expiresAt := some 50 })]
    headers := ["k1: v1"], reflectHeaders := ["r1: w1"] }

/-- A stub for the `Resource.Invoke` collaborator. -/
def runStub : Resource → String → String → String × Int × Option String :=
  fun _ _ _ => ("reply-payload", 12, none)

/-- A sample descriptor set. -/
def protos1 : List Proto := [{ name := "svc.proto", content := [1, 2, 3] }]

/-! ### Claims -/

/-- C1: for every endpoint, a `GetResource` call with `isRestartConn = false`
whose cache holds a valid Resource for that endpoint returns that cached
Resource after overwriting its headers with the caller-supplied headers
concatenated with the reflection headers (in that order), performs no dial,
and neither inserts nor deletes a cache entry nor touches any expiry time. -/
theorem getResource_cache_hit_reuses (g : Client) (target : String) (plainText : Bool)
    (valid : Conn → Bool) (o : DialOracle) (now : Int) (r : Resource)
    (hhit : getConnection g.activeConn target = some r)
    (hvalid : valid r.clientConn = true) :
    (g.GetResource target plainText false valid o now).result
        = Except.ok { r with headers := g.headers ++ g.reflectHeaders } ∧
    (g.GetResource target plainText false valid o now).dialCount = 0 ∧
    (g.GetResource target plainText false valid o now).cache
        = updateResource g.activeConn target
            { r with headers := g.headers ++ g.reflectHeaders } ∧
    ((g.GetResource target plainText false valid o now).cache.map
        fun e => (e.1, e.2.expiresAt))
        = (g.activeConn.map fun e => (e.1, e.2.expiresAt)) ∧
    getConnection (g.GetResource target plainText false valid o now).cache target
        = some { r with headers := g.headers ++ g.reflectHeaders } := by
  have hcond : (!false && valid r.clientConn) = true := by simp [hvalid]
  rw [getResource_hit_eq g target plainText false valid o now r hhit hcond]
  refine ⟨rfl, rfl, rfl, updateResource_keys_expiry _ _ _, ?_⟩
  exact getConnection_updateResource_self _ _ _
    (lookupEntry_isSome_of_getConnection _ _ _ hhit)

theorem getResource_cache_hit_reuses_witness :
    (client0.GetResource "svcA" true false (fun _ => true) oracle0 100).result
        = Except.ok { res0 with headers := client0.headers ++ client0.reflectHeaders } ∧
    (client0.GetResource "svcA" true false (fun _ => true) oracle0 100).dialCount = 0 := by
  have h := getResource_cache_hit_reuses client0 "svcA" true (fun _ => true) oracle0 100
    res0 (by rfl) rfl
  exact ⟨h.1, h.2.1⟩

/-- C8: on the cache-hit reuse path the only field of the cached Resource that
changes is `headers`; the metadata object `md`, the connection handle and the
recorded descriptor set are left exactly as they were (so `md` is not rebuilt
from the newly written headers), both on the returned Resource and on the
cached one. -/
theorem getResource_hit_frame (g : Client) (target : String) (plainText : Bool)
    (valid : Conn → Bool) (o : DialOracle) (now : Int) (r : Resource)
    (hhit : getConnection g.activeConn target = some r)
    (hvalid : valid r.clientConn = true) :
    (g.GetResource target plainText false valid o now).result
        = Except.ok { headers := g.headers ++ g.reflectHeaders, md := r.md
                      clientConn := r.clientConn, protos := r.protos } ∧
    getConnection (g.GetResource target plainText false valid o now).cache target
        = some { headers := g.headers ++ g.reflectHeaders, md := r.md
                 clientConn := r.clientConn, protos := r.protos } := by
  have hcond : (!false && valid r.clientConn) = true := by simp [hvalid]
  rw [getResource_hit_eq g target plainText false valid o now r hhit hcond]
  exact ⟨rfl, getConnection_updateResource_self _ _ _
    (lookupEntry_isSome_of_getConnection _ _ _ hhit)⟩

theorem getResource_hit_frame_witness :
    (client0.GetResource "svcA" false false (fun _ => true) oracle0 200).result
        = Except.ok { headers := client0.headers ++ client0.reflectHeaders, md := res0.md
                      clientConn := res0.clientConn, protos := res0.protos } := by
  have h := getResource_hit_frame client0 "svcA" false (fun _ => true) oracle0 200
    res0 (by rfl) rfl
  exact h.1

/-- C2: whenever no healthy cached Resource can be reused (miss, unhealthy, or
forced restart), `GetResource` leaves no cache entry for the endpoint before
dialing, performs exactly one dial; on dial failure it returns the dial error
unchanged and inserts no entry for the endpoint, and on success it returns a
fresh Resource carrying the combined headers, cached with the configured max
lifetime. -/
theorem getResource_redial_path (g : Client) (target : String)
    (plainText isRestartConn : Bool) (valid : Conn → Bool) (o : DialOracle) (now : Int)
    (hmiss : (getConnection g.activeConn target).all
        (fun r => isRestartConn || !valid r.clientConn) = true) :
    (g.GetResource target plainText isRestartConn valid o now).dialCount = 1 ∧
    (∀ e, (g.dial target plainText o).conn = Except.error e →
      (g.GetResource target plainText isRestartConn valid o now).result = Except.error e ∧
      getConnection (g.GetResource target plainText isRestartConn valid o now).cache target
        = none) ∧
    (∀ cc, (g.dial target plainText o).conn = Except.ok cc →
      (g.GetResource target plainText isRestartConn valid o now).result
        = Except.ok { headers := g.headers ++ g.reflectHeaders
                      md := MetadataFromHeaders (g.headers ++ g.reflectHeaders)
                      clientConn := cc, protos := [] } ∧
      lookupEntry (g.GetResource target plainText isRestartConn valid o now).cache target
        = some { resource := { headers := g.headers ++ g.reflectHeaders
                               md := MetadataFromHeaders (g.headers ++ g.reflectHeaders)
                               clientConn := cc, protos := [] }
                 expiresAt := if g.maxLifeConn ≤ 0 then none
                              else some (now + g.maxLifeConn) }) := by
  cases hc : getConnection g.activeConn target with
  | none =>
    rw [getResource_miss_eq g target plainText isRestartConn valid o now hc]
    exact dialAndCache_spec g target plainText o now g.activeConn
      (lookupEntry_eq_none_of_getConnection _ _ hc)
  | some r0 =>
    have hb : (isRestartConn || !valid r0.clientConn) = true := by
      simpa [hc] using hmiss
    have hv : (!isRestartConn && valid r0.clientConn) = false := by
      cases hi : isRestartConn
      · rw [hi] at hb; simp at hb; simp [hb]
      · simp [hi]
    rw [getResource_stale_eq g target plainText isRestartConn valid o now r0 hc hv]
    exact dialAndCache_spec g target plainText o now _
      (lookupEntry_closeActiveConns_self g target)

theorem getResource_redial_path_witness :
    (client0.GetResource "svcA" true false (fun _ => false) oracle0 100).dialCount = 1 ∧
    (client0.GetResource "svcA" true false (fun _ => false) oracle0 100).result
      = Except.ok { headers := client0.headers ++ client0.reflectHeaders
                    md := MetadataFromHeaders (client0.headers ++ client0.reflectHeaders)
                    clientConn := 1, protos := [] } := by
  have h := getResource_redial_path client0 "svcA" true false (fun _ => false) oracle0 100
    (by rfl)
  exact ⟨h.1, (h.2.2 1 rfl).1⟩

/-- C3: `NewClient` defaults the max lifetime to 10 minutes and the sweep
interval to 3 seconds (overridable via environment); the background sweep is
started if and only if both values are positive, and when either is
non-positive no sweep starts, the max lifetime stays zero, and an entry
inserted with that zero lifetime has no expiry and survives every sweep
pass. -/
theorem newClient_config_defaults_and_gc (envMaxLife envTick : Option Int) :
    ((NewClient envMaxLife envTick).gcStarted = true ↔
      0 < envMaxLife.getD 10 ∧ 0 < envTick.getD 3) ∧
    ((NewClient envMaxLife envTick).gcStarted = true →
      (NewClient envMaxLife envTick).client.maxLifeConn
        = envMaxLife.getD 10 * nanosPerMinute ∧
      (NewClient envMaxLife envTick).gcInterval = envTick.getD 3 * nanosPerSecond) ∧
    ((NewClient envMaxLife envTick).gcStarted = false →
      (NewClient envMaxLife envTick).client.maxLifeConn = 0) ∧
    (envMaxLife = none → envTick = none →
      (NewClient envMaxLife envTick).gcStarted = true ∧
      (NewClient envMaxLife envTick).client.maxLifeConn = 10 * nanosPerMinute ∧
      (NewClient envMaxLife envTick).gcInterval = 3 * nanosPerSecond) ∧
    (∀ (c : Cache) (tgt : String) (r : Resource) (now t : Int),
      (NewClient envMaxLife envTick).gcStarted = false →
      lookupEntry (sweep (addConnection c tgt r
          (NewClient envMaxLife envTick).client.maxLifeConn now) t) tgt
        = some { resource := r, expiresAt := none }) := by
  by_cases hp : 0 < envMaxLife.getD 10 ∧ 0 < envTick.getD 3
  · refine ⟨by simp [NewClient, hp], ?_, ?_, ?_, ?_⟩
    · intro _; simp [NewClient, hp]
    · intro hg; simp [NewClient, hp] at hg
    · intro h1 h2; subst h1; subst h2; refine ⟨by simp [NewClient, hp], ?_, ?_⟩
      · simp [NewClient, hp]
      · simp [NewClient, hp]
    · intro c tgt r now t hg; simp [NewClient, hp] at hg
  · refine ⟨by simp [NewClient, hp], ?_, ?_, ?_, ?_⟩
    · intro hg; simp [NewClient, hp] at hg
    · intro _; simp [NewClient, hp]
    · intro h1 h2; subst h1; subst h2
      exact absurd ⟨by norm_num, by norm_num⟩ hp
    · intro c tgt r now t _
      have hm : (NewClient envMaxLife envTick).client.maxLifeConn = 0 := by
        simp [NewClient, hp]
      rw [hm]
      simp [addConnection, sweep, List.filter_cons]

theorem newClient_config_defaults_and_gc_witness :
    (NewClient (some 0) (some 5)).client.maxLifeConn = 0 ∧
    lookupEntry (sweep (addConnection [] "svcD" res0
        (NewClient (some 0) (some 5)).client.maxLifeConn 0) 999999) "svcD"
      = some { resource := res0, expiresAt := none } := by
  have h := newClient_config_defaults_and_gc (some 0) (some 5)
  exact ⟨h.2.2.1 (by decide), h.2.2.2.2 [] "svcD" res0 0 999999 (by decide)⟩

/-- C5: `Client.Invoke` acquires the Resource with `isRestartConn = false`
and, on success, delegates to the `Resource.Invoke` collaborator with the
fully qualified method name formed exactly as `service ++ "." ++ method`,
returning its triple; an acquisition error is propagated to the caller and
the collaborator is never called. -/
theorem invoke_delegates (g : Client) (target service method data : String)
    (valid : Conn → Bool) (o : DialOracle)
    (run : Resource → String → String → String × Int × Option String) (now : Int) :
    (∀ e, (g.GetResource target true false valid o now).result = Except.error e →
      (g.Invoke target service method data valid o run now).err = some e ∧
      (g.Invoke target service method data valid o run now).invoked = none) ∧
    (∀ rs, (g.GetResource target true false valid o now).result = Except.ok rs →
      (g.Invoke target service method data valid o run now).invoked
        = some (rs, service ++ "." ++ method) ∧
      ((g.Invoke target service method data valid o run now).reply,
       (g.Invoke target service method data valid o run now).cost,
       (g.Invoke target service method data valid o run now).err)
        = run rs (service ++ "." ++ method) data) := by
  constructor
  · intro e he; simp [Client.Invoke, he]
  · intro rs hrs; simp [Client.Invoke, hrs]

theorem invoke_delegates_witness :
    (({} : Client).Invoke "svcC" "Svc" "Method" "payload"
        (fun _ => true) oracleFail runStub 0).err = some "dial failed" ∧
    (({} : Client).Invoke "svcC" "Svc" "Method" "payload"
        (fun _ => true) oracleFail runStub 0).invoked = none :=
  (invoke_delegates {} "svcC" "Svc" "Method" "payload"
    (fun _ => true) oracleFail runStub 0).1 "dial failed" rfl

/-- C6: `CloseActiveConns("all")` deletes every cached entry; for any other
host only the entry keyed by that host is deleted (entries under other keys
are untouched, and deleting an absent key leaves the cache unchanged); in
every case the returned error is nil. -/
theorem closeActiveConns_spec (g : Client) (host : String) :
    (g.CloseActiveConns host).2 = none ∧
    (host = "all" → (g.CloseActiveConns host).1.activeConn = []) ∧
    (host ≠ "all" →
      (g.CloseActiveConns host).1.activeConn = deleteConn g.activeConn host ∧
      lookupEntry (g.CloseActiveConns host).1.activeConn host = none ∧
      (∀ k, k ≠ host →
        lookupEntry (g.CloseActiveConns host).1.activeConn k
          = lookupEntry g.activeConn k) ∧
      (lookupEntry g.activeConn host = none →
        (g.CloseActiveConns host).1.activeConn = g.activeConn)) := by
  refine ⟨?_, ?_, ?_⟩
  · by_cases h : host = "all" <;> simp [Client.CloseActiveConns, h]
  · intro h; subst h; exact closeActiveConns_all g
  · intro h
    have he := closeActiveConns_other g host h
    exact ⟨he, by rw [he]; exact lookupEntry_deleteConn_self _ _,
      fun k hk => by rw [he]; exact lookupEntry_deleteConn_other _ _ _ hk,
      fun habs => by rw [he]; exact deleteConn_absent _ _ habs⟩

theorem closeActiveConns_spec_witness :
    (client0.CloseActiveConns "absent").2 = none ∧
    (client0.CloseActiveConns "absent").1.activeConn = client0.activeConn := by
  have h := closeActiveConns_spec client0 "absent"
  exact ⟨h.1, (h.2.2 (by decide)).2.2.2 (by rfl)⟩

/-- C9: `SetHeaders` replaces the caller-supplied header list with its
argument, `AddHeaders` appends its argument to the existing list preserving
prior order, and `ClearHeaders` empties the list while completely ignoring
its argument; none of them touches the reflection headers or the cache. -/
theorem header_ops_spec (g : Client) (hs hs2 : List String) :
    (g.SetHeaders hs).headers = hs ∧
    (g.AddHeaders hs).headers = g.headers ++ hs ∧
    (g.ClearHeaders hs).headers = [] ∧
    g.ClearHeaders hs = g.ClearHeaders hs2 ∧
    (g.SetHeaders hs).reflectHeaders = g.reflectHeaders ∧
    (g.AddHeaders hs).reflectHeaders = g.reflectHeaders ∧
    (g.ClearHeaders hs).reflectHeaders = g.reflectHeaders ∧
    (g.SetHeaders hs).activeConn = g.activeConn ∧
    (g.AddHeaders hs).activeConn = g.activeConn ∧
    (g.ClearHeaders hs).activeConn = g.activeConn :=
  ⟨rfl, rfl, rfl, rfl, rfl, rfl, rfl, rfl, rfl, rfl⟩

/-- C10: `Client.Invoke` always acquires with `plainText = true`, so whenever
its acquisition reaches the blocking dial, the dial is handed no transport
credentials — whatever TLS material (insecure flag, CA cert, client cert/key,
server name) the client is configured with. -/
theorem invoke_plaintext_creds (g : Client) (target service method data : String)
    (valid : Conn → Bool) (o : DialOracle)
    (run : Resource → String → String → String × Int × Option String) (now : Int) :
    (g.Invoke target service method data valid o run now).credsUsed =
      if (g.Invoke target service method data valid o run now).dialCount = 0 then none
      else some none := by
  have hd : (g.dial target true o).credsUsed = some none := by simp [Client.dial]
  cases hc : getConnection g.activeConn target with
  | none =>
    have heq := getResource_miss_eq g target true false valid o now hc
    cases hcc : (g.dial target true o).conn with
    | error e =>
      simp [Client.Invoke, heq, dialAndCache_error g target true o now _ e hcc, hd]
    | ok cc =>
      simp [Client.Invoke, heq, dialAndCache_ok g target true o now _ cc hcc, hd]
  | some r0 =>
    cases hv : !false && valid r0.clientConn with
    | true =>
      simp [Client.Invoke, getResource_hit_eq g target true false valid o now r0 hc hv]
    | false =>
      have heq := getResource_stale_eq g target true false valid o now r0 hc hv
      cases hcc : (g.dial target true o).conn with
      | error e =>
        simp [Client.Invoke, heq, dialAndCache_error g target true o now _ e hcc, hd]
      | ok cc =>
        simp [Client.Invoke, heq, dialAndCache_ok g target true o now _ cc hcc, hd]

theorem getResourceWithProto_ok_state (g : Client) (target : String) (pt irc : Bool)
    (protos : List Proto) (valid : Conn → Bool) (o : DialOracle) (now : Int)
    (herr : (g.GetResourceWithProto target pt irc protos valid o (Except.ok ()) now).err
      = none)
    (r : Resource)
    (hres : (g.GetResourceWithProto target pt irc protos valid o (Except.ok ()) now).res
      = some r) :
    getConnection
        (g.GetResourceWithProto target pt irc protos valid o (Except.ok ()) now).cache
        target = some r ∧
    r.protos = protos := by
  cases hr : (g.GetResource target pt irc valid o now).result with
  | error e => simp [Client.GetResourceWithProto, hr] at herr
  | ok r0 =>
    by_cases hp : r0.protos = protos
    · simp only [Client.GetResourceWithProto, hr, hp, if_true, eq_self_iff_true] at hres ⊢
      simp only [Option.some.injEq] at hres
      subst hres
      exact ⟨getResource_ok_lookup g target pt irc valid o now r0 hr, hp⟩
    · simp only [Client.GetResourceWithProto, hr, AddProtos, if_neg hp] at hres ⊢
      simp only [Option.some.injEq] at hres
      subst hres
      refine ⟨getConnection_updateResource_self _ _ _ ?_, rfl⟩
      exact lookupEntry_isSome_of_getConnection _ _ _
        (getResource_ok_lookup g target pt irc valid o now r0 hr)

theorem getResourceWithProto_hit_skip (g : Client) (target : String) (pt2 : Bool)
    (protos : List Proto) (valid : Conn → Bool) (o2 : DialOracle) (now2 : Int)
    (cache1 : Cache) (r : Resource)
    (hlook : getConnection cache1 target = some r)
    (hpr : r.protos = protos) (hval : valid r.clientConn = true) :
    (Client.GetResourceWithProto { g with activeConn := cache1 } target pt2 false protos
        valid o2 (Except.ok ()) now2).addProtosCalls = 0 ∧
    (Client.GetResourceWithProto { g with activeConn := cache1 } target pt2 false protos
        valid o2 (Except.ok ()) now2).err = none := by
  have hcond : (!false && valid r.clientConn) = true := by simp [hval]
  have heq := getResource_hit_eq { g with activeConn := cache1 } target pt2 false valid o2
    now2 r hlook hcond
  simp [Client.GetResourceWithProto, heq, hpr]

/-- C4: on a successful acquisition, `GetResourceWithProto` skips `AddProtos`
exactly when the supplied descriptor set deep-equals the Resource's recorded
set, and calls it exactly once otherwise; consequently two successive calls
with the same descriptor set against the same (healthy) cached Resource call
the persistence operation exactly once in total. -/
theorem getResourceWithProto_persists_once (g : Client) (target : String)
    (pt irc pt2 : Bool) (protos : List Proto) (valid : Conn → Bool) (o o2 : DialOracle)
    (now now2 : Int) :
    (∀ r, (g.GetResource target pt irc valid o now).result = Except.ok r →
      (r.protos = protos →
        (g.GetResourceWithProto target pt irc protos valid o
          (Except.ok ()) now).addProtosCalls = 0 ∧
        (g.GetResourceWithProto target pt irc protos valid o
          (Except.ok ()) now).res = some r ∧
        (g.GetResourceWithProto target pt irc protos valid o
          (Except.ok ()) now).err = none) ∧
      (r.protos ≠ protos →
        (g.GetResourceWithProto target pt irc protos valid o
          (Except.ok ()) now).addProtosCalls = 1)) ∧
    ((twoProtoCalls g target pt irc pt2 protos valid o o2 now now2).1.err = none →
      ∀ r, (twoProtoCalls g target pt irc pt2 protos valid o o2 now now2).1.res = some r →
        valid r.clientConn = true →
        (twoProtoCalls g target pt irc pt2 protos valid o o2 now now2).2.addProtosCalls
          = 0 ∧
        (twoProtoCalls g target pt irc pt2 protos valid o o2 now now2).2.err = none) ∧
    (∀ r0, (g.GetResource target pt irc valid o now).result = Except.ok r0 →
      r0.protos ≠ protos → valid r0.clientConn = true →
      (twoProtoCalls g target pt irc pt2 protos valid o o2 now now2).1.addProtosCalls
        = 1 ∧
      (twoProtoCalls g target pt irc pt2 protos valid o o2 now now2).2.addProtosCalls
        = 0) := by
  refine ⟨?_, ?_, ?_⟩
  · intro r hr
    constructor
    · intro hp; simp [Client.GetResourceWithProto, hr, hp]
    · intro hp; simp [Client.GetResourceWithProto, hr, hp]
  · intro herr r hres hval
    simp only [twoProtoCalls] at herr hres ⊢
    obtain ⟨hlook, hpr⟩ :=
      getResourceWithProto_ok_state g target pt irc protos valid o now herr r hres
    exact getResourceWithProto_hit_skip g target pt2 protos valid o2 now2 _ r
      hlook hpr hval
  · intro r0 hr0 hne hval
    simp only [twoProtoCalls]
    have hfirst :
        (g.GetResourceWithProto target pt irc protos valid o
          (Except.ok ()) now).addProtosCalls = 1 ∧
        (g.GetResourceWithProto target pt irc protos valid o
          (Except.ok ()) now).err = none ∧
        (g.GetResourceWithProto target pt irc protos valid o
          (Except.ok ()) now).res = some { r0 with protos := protos } := by
      simp [Client.GetResourceWithProto, hr0, hne, AddProtos]
    obtain ⟨hlook, hpr⟩ := getResourceWithProto_ok_state g target pt irc protos valid o
      now hfirst.2.1 _ hfirst.2.2
    refine ⟨hfirst.1, ?_⟩
    exact (getResourceWithProto_hit_skip g target pt2 protos valid o2 now2 _ _
      hlook hpr hval).1

theorem getResourceWithProto_persists_once_witness :
    (twoProtoCalls {} "svcB" true false true protos1
        (fun _ => true) oracle0 oracle0 0 1).1.addProtosCalls = 1 ∧
    (twoProtoCalls {} "svcB" true false true protos1
        (fun _ => true) oracle0 oracle0 0 1).2.addProtosCalls = 0 := by
  have h := getResourceWithProto_persists_once {} "svcB" true false true protos1
    (fun _ => true) oracle0 oracle0 0 1
  exact h.2.2 { headers := [], md := MetadataFromHeaders [], clientConn := 1, protos := [] }
    rfl (by decide) rfl

end Grpcli
